import Mathlib

/-!
Verification of the Service Calls Dashboard (src/app.py) against its
natural-language specification.  The Python source is shallowly embedded:
pure string helpers become Lean functions on `String`/`List Char`, the
dataframe becomes a `List Rec`, boolean masks become `List.filter`, and the
Streamlit error/stop control flow becomes an explicit result type.
-/

namespace Dashboard

/-! ### String helpers modelling Python `str` methods (ASCII fragment) -/

/-- Whitespace test used by Python `str.strip` / `str.split` (ASCII subset). -/
def isWS (c : Char) : Bool :=
  c = ' ' || c = '\t' || c = '\n' || c = '\r' || c = '\x0b' || c = '\x0c'

/-- Model of Python `str.strip()`: drop leading and trailing whitespace. -/
def strStrip (s : String) : String :=
  ⟨((s.data.dropWhile isWS).reverse.dropWhile isWS).reverse⟩

/-- Model of Python `str.upper()` on ASCII text. -/
def strUpper (s : String) : String :=
  ⟨s.data.map Char.toUpper⟩

/-- Accumulator pass behind `wordsOf`: splits a character list on whitespace
runs, as Python `str.split()` with no argument does. -/
def splitWSAux : List Char → List Char → List String
  | [], acc => if acc.isEmpty then [] else [⟨acc.reverse⟩]
  | c :: cs, acc =>
    if isWS c then
      if acc.isEmpty then splitWSAux cs []
      else ⟨acc.reverse⟩ :: splitWSAux cs []
    else splitWSAux cs (c :: acc)

/-- Model of Python `str.split()` (split on whitespace runs, no empty words). -/
def wordsOf (s : String) : List String :=
  splitWSAux s.data []

/-! ### `normalize_status` (src/app.py lines 54-58)

```python
def normalize_status(s):
    s = str(s).strip().upper()
    if s in ["NAN", "", "NONE", "NULL", "(BLANK)"]:
        return "BLANK"
    return s
```
-/

/-- The null-like tokens of `normalize_status` (line 56). -/
def nullTokens : List String := ["NAN", "", "NONE", "NULL", "(BLANK)"]

/-- Embedding of `normalize_status` (src/app.py:54-58).  The argument is the
`str(s)` rendering of the cell value. -/
def normalize_status (s : String) : String :=
  let t := strUpper (strStrip s)
  if t ∈ nullTokens then "BLANK" else t

/-- The closed canonical set named by the specification. -/
def specCanonicalSet : List String := ["ATTENDED", "COMPLETED", "NOT ATTENDED", "OTHER"]

/-- C1 counterexample: the raw status "FOO" is passed through unchanged by
`normalize_status`, and "FOO" is not a member of the specification's closed
canonical set {ATTENDED, COMPLETED, NOT ATTENDED, OTHER}; the code also never
produces "OTHER" for null-like input — it produces "BLANK". -/
theorem C1_counterexample :
    normalize_status "FOO" = "FOO" ∧ "FOO" ∉ specCanonicalSet ∧
      normalize_status "" = "BLANK" ∧ "BLANK" ∉ specCanonicalSet := by
  decide

/-- C1 (amended): status canonicalization is a deterministic total function,
but its codomain is not the closed set {ATTENDED, COMPLETED, NOT ATTENDED,
OTHER}: every result is either the sentinel "BLANK" (for null-like input) or
the stripped-and-uppercased input string itself, so arbitrary status text
passes through. -/
theorem C1_normalize_status_shape (s : String) :
    normalize_status s = "BLANK" ∨ normalize_status s = strUpper (strStrip s) := by
  unfold normalize_status
  by_cases h : strUpper (strStrip s) ∈ nullTokens
  · exact Or.inl (by simp [h])
  · exact Or.inr (by simp [h])

/-- C1 witness: the shape theorem evaluated at a concrete input. -/
theorem C1_normalize_status_shape_witness :
    normalize_status "FOO BAR" = "BLANK" ∨
      normalize_status "FOO BAR" = strUpper (strStrip "FOO BAR") :=
  C1_normalize_status_shape "FOO BAR"

/-- C2 counterexample: "Completed Successfully" contains "COMPLETE" (up to
case), yet `normalize_status` returns "COMPLETED SUCCESSFULLY", not
"COMPLETED" — there is no substring rule in the code. -/
theorem C2_counterexample :
    normalize_status "Completed Successfully" = "COMPLETED SUCCESSFULLY" ∧
      normalize_status "Completed Successfully" ≠ "COMPLETED" := by
  decide

/-- C2 (amended): canonicalization returns COMPLETED exactly when the
stripped, uppercased input is the literal string "COMPLETED"; a status merely
containing "COMPLETE" as a substring is passed through unchanged. -/
theorem C2_completed_iff_exact (s : String) :
    normalize_status s = "COMPLETED" ↔ strUpper (strStrip s) = "COMPLETED" := by
  unfold normalize_status
  by_cases h : strUpper (strStrip s) ∈ nullTokens
  · simp only [h, if_pos]
    constructor
    · intro hb; exact absurd hb (by decide)
    · intro hc; rw [hc] at h; exact absurd h (by decide)
  · simp [h]

/-- C3 counterexample: the empty status string is mapped to "BLANK", not to
the specification's "OTHER". -/
theorem C3_counterexample :
    normalize_status "" = "BLANK" ∧ normalize_status "" ≠ "OTHER" := by
  decide

/-- C3 (amended): every status string that is empty, whitespace-only, or
equal case-insensitively to one of "NAN", "NONE", "NULL", "BLANK" is
canonicalized to "BLANK" (the code's sentinel), not to "OTHER". -/
theorem C3_nullish_to_blank (s : String)
    (h : strStrip s = "" ∨ strUpper (strStrip s) ∈ ["NAN", "NONE", "NULL", "BLANK"]) :
    normalize_status s = "BLANK" := by
  unfold normalize_status
  rcases h with h | h
  · rw [h]; decide
  · simp only [List.mem_cons, List.not_mem_nil, or_false] at h
    rcases h with h | h | h | h
    all_goals rw [h]
    all_goals decide

/-- C3 witness: the amended theorem applied to a whitespace-only input and to
a case-variant of "blank". -/
theorem C3_nullish_to_blank_witness :
    normalize_status "   " = "BLANK" ∧ normalize_status "blank" = "BLANK" :=
  ⟨C3_nullish_to_blank "   " (Or.inl (by decide)),
   C3_nullish_to_blank "blank" (Or.inr (by decide))⟩

/-! ### `ensure_col` (src/app.py lines 25-44)

Column-header normalization is `" ".join(str(c).strip().upper().split())`
(line 22 for the dataframe's headers, lines 27 and 40 for the requested name
and each alias).
-/

/-- Header normalization `" ".join(x.strip().upper().split())`: trim,
uppercase, collapse internal whitespace runs to single spaces. -/
def normHeader (s : String) : String :=
  String.intercalate " " (wordsOf (strUpper (strStrip s)))

/-- The fixed alias table of `ensure_col` (src/app.py:31-37), keyed by the
normalized requested name. -/
def aliases (w : String) : List String :=
  if w = "CALL STATUS" then
    ["STATUS", "CALLSTATUS", "CALL_STATUS", "CALL  STATUS", "CALL-STATUS"]
  else if w = "TECH 1" then ["TECH1", "TECH  1", "TECHNICIAN", "TECH"]
  else if w = "TD REPORT NO." then
    ["TD REPORT NO", "TD_REPORT_NO", "REPORT NO", "REPORT NO."]
  else if w = "DATE" then ["CALL DATE", "SERVICE DATE"]
  else if w = "CUSTOMER" then ["CLIENT", "CUSTOMER NAME"]
  else []

/-- The alias loop of `ensure_col` (src/app.py:39-42): normalize each alias
in order and return the first one present among the columns. -/
def findAlias (cols : List String) : List String → Option String
  | [] => none
  | a :: rest =>
    let aN := normHeader a
    if aN ∈ cols then some aN else findAlias cols rest

/-- Embedding of `ensure_col` (src/app.py:25-44): exact normalized match
first, then the alias list, else `None`.  `cols` is the dataframe's
(already normalized) header list. -/
def ensure_col (cols : List String) (want : String) : Option String :=
  let wantN := normHeader want
  if wantN ∈ cols then some wantN else findAlias cols (aliases wantN)

/-- The alias loop returns exactly the first normalized alias present among
the columns. -/
theorem findAlias_eq_find? (cols : List String) (as : List String) :
    findAlias cols as = (as.map normHeader).find? (fun a => decide (a ∈ cols)) := by
  induction as with
  | nil => rfl
  | cons a rest ih =>
    simp only [findAlias, List.map_cons, List.find?_cons]
    by_cases h : normHeader a ∈ cols
    · simp [h]
    · simp [h, ih]

/-- C4: column resolution is a pure function of (headers, requested name):
it returns the exact normalized match when present among the headers,
otherwise the first entry of the fixed alias list (normalized) that is
present, and `none` when neither is present. -/
theorem C4_ensure_col_resolution (cols : List String) (want : String) :
    ensure_col cols want =
      if normHeader want ∈ cols then some (normHeader want)
      else ((aliases (normHeader want)).map normHeader).find? (fun a => decide (a ∈ cols)) := by
  unfold ensure_col
  by_cases h : normHeader want ∈ cols
  · simp [h]
  · simp [h, findAlias_eq_find?]

/-- C10: whenever column resolution returns a header name, that name is a
member of the actual header list, so a later lookup of the resolved column
cannot miss. -/
theorem C10_resolved_column_present (cols : List String) (want c : String)
    (h : ensure_col cols want = some c) : c ∈ cols := by
  unfold ensure_col at h
  by_cases hw : normHeader want ∈ cols
  · rw [if_pos hw] at h
    exact (Option.some_inj.1 h) ▸ hw
  · rw [if_neg hw, findAlias_eq_find?] at h
    have hc := List.find?_some (p := fun a => decide (a ∈ cols)) h
    exact of_decide_eq_true hc

/-- C10 witness: resolving "CALL STATUS" against headers containing only
the alias "STATUS" yields "STATUS", which is indeed among the headers. -/
theorem C10_resolved_column_present_witness :
    "STATUS" ∈ ["DATE", "CUSTOMER", "STATUS"] :=
  C10_resolved_column_present ["DATE", "CUSTOMER", "STATUS"] "CALL STATUS" "STATUS" (by decide)

/-! ### Required-column check (src/app.py lines 141-163)

```python
missing = [name for name, real in [...] if real is None]
if missing:
    st.error(f"Missing required columns in Excel: {', '.join(missing)}")
    st.write("Available columns:", list(df.columns))
    st.stop()
```
`st.stop()` aborts the script, so nothing after it renders.
-/

/-- Outcome of a render pass: either halted by `st.stop()` after a
user-visible error showing the available headers, or rendered output. -/
inductive RenderOutcome (α : Type) where
  | halted (message : String) (availableColumns : List String) : RenderOutcome α
  | rendered (value : α) : RenderOutcome α

/-- The `(name, resolved)` pairs for the three required logical columns
(src/app.py:147-151). -/
def requiredResolved (cols : List String) : List (String × Option String) :=
  [("DATE", ensure_col cols "DATE"),
   ("CUSTOMER", ensure_col cols "CUSTOMER"),
   ("CALL STATUS", ensure_col cols "CALL STATUS")]

/-- The `missing` list comprehension (src/app.py:147-151). -/
def missingRequired (cols : List String) : List String :=
  (requiredResolved cols).filterMap (fun p => if p.2 = none then some p.1 else none)

/-- Embedding of the fail-fast check at src/app.py:153-163: on any missing
required column the script shows the error and available headers and stops;
otherwise the resolved names flow onward. -/
def resolveRequired (cols : List String) :
    RenderOutcome (Option String × Option String × Option String) :=
  let missing := missingRequired cols
  if missing.isEmpty then
    .rendered (ensure_col cols "DATE", ensure_col cols "CUSTOMER", ensure_col cols "CALL STATUS")
  else
    .halted ("Missing required columns in Excel: " ++ String.intercalate ", " missing) cols

/-- C5: if any required column (date, customer, status) fails to resolve,
the render pass halts with a user-visible error carrying the available
headers, and the missing-name list it reports is nonempty — no rendered
output is produced. -/
theorem C5_missing_required_halts (cols : List String)
    (h : ensure_col cols "DATE" = none ∨ ensure_col cols "CUSTOMER" = none ∨
      ensure_col cols "CALL STATUS" = none) :
    (∃ msg, resolveRequired cols = RenderOutcome.halted msg cols) ∧
      missingRequired cols ≠ [] := by
  have hne : missingRequired cols ≠ [] := by
    rcases h with h | h | h
    · have hmem : "DATE" ∈ missingRequired cols := List.mem_filterMap.2
        ⟨("DATE", ensure_col cols "DATE"), by simp [requiredResolved], by simp [h]⟩
      exact List.ne_nil_of_mem hmem
    · have hmem : "CUSTOMER" ∈ missingRequired cols := List.mem_filterMap.2
        ⟨("CUSTOMER", ensure_col cols "CUSTOMER"), by simp [requiredResolved], by simp [h]⟩
      exact List.ne_nil_of_mem hmem
    · have hmem : "CALL STATUS" ∈ missingRequired cols := List.mem_filterMap.2
        ⟨("CALL STATUS", ensure_col cols "CALL STATUS"), by simp [requiredResolved], by simp [h]⟩
      exact List.ne_nil_of_mem hmem
  refine ⟨?_, hne⟩
  unfold resolveRequired
  rw [if_neg (by simpa [List.isEmpty_iff] using hne)]
  exact ⟨_, rfl⟩

/-- C5 witness: a header list with no date/customer/status column halts. -/
theorem C5_missing_required_halts_witness :
    ∃ msg, resolveRequired ["FOO"] = RenderOutcome.halted msg ["FOO"] :=
  (C5_missing_required_halts ["FOO"] (Or.inl (by decide))).1

/-! ### Records and the filter stage (src/app.py lines 243-254)

A dataframe row after the normalization steps of lines 166-173: the date is
parsed (rows with unparseable dates were dropped), the status went through
`normalize_status`, customer and technician through `normalize_text` (hence
`Option String`).
-/

/-- A calendar date, the parsed value of the DATE column. -/
structure Date where
  year : Nat
  month : Nat
  day : Nat
deriving DecidableEq, Repr

/-- One normalized service-call row. -/
structure Row where
  date : Date
  customer : Option String
  tech : Option String
  status : String
deriving DecidableEq, Repr

/-- The status column viewed as an (always present) optional field, so the
three dimension filters share one shape. -/
def statusField (r : Row) : Option String := some r.status

/-- Embedding of one `isin` mask conjunct (src/app.py:245-252): when the
selection list is empty the filter is skipped entirely (`if sel_customers:`),
otherwise a row passes when its field value is a member of the selection;
a null field value is never a member. -/
def maskFilter (f : Row → Option String) (sel : List String) (l : List Row) : List Row :=
  if sel.isEmpty then l
  else l.filter (fun r =>
    match f r with
    | some v => decide (v ∈ sel)
    | none => false)

/-- The option list of one dropdown: `df[col].dropna().unique().tolist()`
(src/app.py:193, 204, 217) — the distinct non-null values of the dimension. -/
def dimOptions (f : Row → Option String) (l : List Row) : List String :=
  (l.filterMap f).dedup

/-- The return convention of `dropdown_checkbox_filter` (src/app.py:135):
`selected if selected else options` — an empty checked set is replaced by
the full option list.  The widget interaction itself is opaque; `selected`
is the list of checked options. -/
def dropdown_checkbox_filter (options selected : List String) : List String :=
  if selected.isEmpty then options else selected

/-- C6: for every record set and dimension, the subset obtained when the
user checks nothing equals the subset obtained when the user checks every
value of the dimension — the empty allow-list behaves as "select all". -/
theorem C6_empty_selection_is_select_all (l : List Row) (f : Row → Option String) :
    maskFilter f (dropdown_checkbox_filter (dimOptions f l) []) l
      = maskFilter f (dropdown_checkbox_filter (dimOptions f l) (dimOptions f l)) l := by
  by_cases h : (dimOptions f l).isEmpty <;>
    simp [dropdown_checkbox_filter, h]

/-! ### Status breakdown for the pie chart (src/app.py lines 274-295) -/

/-- The fixed display order of the three main statuses (src/app.py:187). -/
def statusOrderMain : List String := ["COMPLETED", "ATTENDED", "NOT ATTENDED"]

/-- The chart status order (src/app.py:279-282): the main three statuses
that are selected, in fixed order, followed by the remaining selected
statuses. -/
def chartStatusOrder (sel : List String) : List String :=
  let main := statusOrderMain.filter (fun s => decide (s ∈ sel))
  main ++ sel.filter (fun s => decide (s ∉ main))

/-- The chart base (src/app.py:274-276): drop BLANK rows unless BLANK was
explicitly selected. -/
def chartBase (sel : List String) (l : List Row) : List Row :=
  if (l.any (fun r => decide (r.status = "BLANK"))) && !(decide ("BLANK" ∈ sel)) then
    l.filter (fun r => !(decide (r.status = "BLANK")))
  else l

/-- The pie-chart table (src/app.py:288-295):
`value_counts().reindex(chart_status_order).fillna(0)` — for each status of
the chart order, the number of chart-base rows with that status. -/
def status_counts (sel : List String) (l : List Row) : List (String × Nat) :=
  (chartStatusOrder sel).map (fun s => (s, l.countP (fun r => decide (r.status = s))))

/-- Sums of pointwise-added maps split. -/
theorem sum_map_add (keys : List String) (f g : String → Nat) :
    (keys.map (fun s => f s + g s)).sum = (keys.map f).sum + (keys.map g).sum := by
  induction keys with
  | nil => simp
  | cons k ks ih => simp [ih]; omega

/-- An indicator summed over a list avoiding the point is zero. -/
theorem sum_map_indicator_of_not_mem (a : String) (keys : List String) (h : a ∉ keys) :
    (keys.map (fun s => if a = s then 1 else 0)).sum = 0 := by
  induction keys with
  | nil => simp
  | cons k ks ih =>
    have hak : a ≠ k := fun hc => h (hc ▸ List.mem_cons_self k ks)
    have hks : a ∉ ks := fun hc => h (List.mem_cons_of_mem k hc)
    simp [hak, ih hks]

/-- An indicator summed over a duplicate-free list containing the point is
one. -/
theorem sum_map_indicator_of_mem (a : String) (keys : List String)
    (hnd : keys.Nodup) (h : a ∈ keys) :
    (keys.map (fun s => if a = s then 1 else 0)).sum = 1 := by
  induction keys with
  | nil => exact absurd h (List.not_mem_nil a)
  | cons k ks ih =>
    rcases List.mem_cons.1 h with h | h
    · subst h
      simp [sum_map_indicator_of_not_mem a ks (List.nodup_cons.1 hnd).1]
    · have hak : a ≠ k := fun hc => (List.nodup_cons.1 hnd).1 (hc ▸ h)
      simp [hak, ih (List.nodup_cons.1 hnd).2 h]

/-- Counting rows per key over a duplicate-free key list that covers every
row's status partitions the rows: the counts sum to the length. -/
theorem sum_counts_eq_length (keys : List String) (l : List Row)
    (hnd : keys.Nodup) (hall : ∀ r ∈ l, r.status ∈ keys) :
    (keys.map (fun s => l.countP (fun r => decide (r.status = s)))).sum = l.length := by
  induction l with
  | nil => simp
  | cons r t ih =>
    have hr : r.status ∈ keys := hall r (List.mem_cons_self r t)
    have ht : ∀ x ∈ t, x.status ∈ keys := fun x hx => hall x (List.mem_cons_of_mem r hx)
    have hcount : ∀ s, (r :: t).countP (fun x => decide (x.status = s))
        = t.countP (fun x => decide (x.status = s)) + (if r.status = s then 1 else 0) := by
      intro s
      rw [List.countP_cons]
      by_cases hs : r.status = s <;> simp [hs]
    simp only [hcount]
    rw [sum_map_add, ih ht, sum_map_indicator_of_mem r.status keys hnd hr]
    simp [Nat.add_comm]

/-- Every row surviving the status mask has a selected status (the mask is
only skipped for an empty selection). -/
theorem mem_maskFilter_status (sel : List String) (l : List Row) (hne : sel ≠ [])
    (r : Row) (hr : r ∈ maskFilter statusField sel l) : r.status ∈ sel := by
  unfold maskFilter at hr
  rw [if_neg (by simpa [List.isEmpty_iff] using hne)] at hr
  have hp := (List.mem_filter.1 hr).2
  simpa [statusField] using hp

/-- The chart base is a subset of the filtered rows. -/
theorem mem_of_mem_chartBase (sel : List String) (l : List Row) (r : Row)
    (hr : r ∈ chartBase sel l) : r ∈ l := by
  unfold chartBase at hr
  split at hr
  · exact List.mem_of_mem_filter hr
  · exact hr

/-- Every selected status appears in the chart status order. -/
theorem mem_chartStatusOrder_of_mem_sel (sel : List String) (s : String) (hs : s ∈ sel) :
    s ∈ chartStatusOrder sel := by
  unfold chartStatusOrder
  by_cases h : s ∈ statusOrderMain.filter (fun x => decide (x ∈ sel))
  · exact List.mem_append_left _ h
  · exact List.mem_append_right _ (List.mem_filter.2 ⟨hs, decide_eq_true h⟩)

/-- The chart status order has no duplicates when the selection has none. -/
theorem chartStatusOrder_nodup (sel : List String) (hnd : sel.Nodup) :
    (chartStatusOrder sel).Nodup := by
  unfold chartStatusOrder
  apply List.Nodup.append
  · exact List.Nodup.filter _ (by decide)
  · exact List.Nodup.filter _ hnd
  · intro a ha hb
    have hnot := (List.mem_filter.1 hb).2
    simp only [decide_eq_true_eq] at hnot
    exact hnot ha

/-- C8: the per-status counts of the pie-chart table sum to the number of
rows in the chart's record set.  The selection is duplicate-free and
nonempty, as the dropdown guarantees (options are `unique()` values and an
empty check set is replaced by all options). -/
theorem C8_breakdown_counts_sum (l : List Row) (sel : List String)
    (hnd : sel.Nodup) (hne : sel ≠ []) :
    ((status_counts sel (chartBase sel (maskFilter statusField sel l))).map Prod.snd).sum
      = (chartBase sel (maskFilter statusField sel l)).length := by
  have key : ∀ r ∈ chartBase sel (maskFilter statusField sel l),
      r.status ∈ chartStatusOrder sel :=
    fun r hr => mem_chartStatusOrder_of_mem_sel sel r.status
      (mem_maskFilter_status sel l hne r (mem_of_mem_chartBase _ _ r hr))
  have hsum := sum_counts_eq_length (chartStatusOrder sel)
    (chartBase sel (maskFilter statusField sel l)) (chartStatusOrder_nodup sel hnd) key
  simpa [status_counts, List.map_map, Function.comp] using hsum

/-- Example rows: the spec's §8 scenario plus one null-status row. -/
def exampleRows : List Row :=
  [⟨⟨2026, 1, 15⟩, some "Acme", some "J.Doe", "COMPLETED"⟩,
   ⟨⟨2026, 1, 20⟩, some "Acme", some "J.Doe", "NOT ATTENDED"⟩,
   ⟨⟨2026, 2, 1⟩, some "Beta", none, "BLANK"⟩]

/-- C8 witness: the sum property evaluated on the example rows with the two
main statuses selected. -/
theorem C8_breakdown_counts_sum_witness :
    ((status_counts ["COMPLETED", "NOT ATTENDED"]
        (chartBase ["COMPLETED", "NOT ATTENDED"]
          (maskFilter statusField ["COMPLETED", "NOT ATTENDED"] exampleRows))).map Prod.snd).sum
      = (chartBase ["COMPLETED", "NOT ATTENDED"]
          (maskFilter statusField ["COMPLETED", "NOT ATTENDED"] exampleRows)).length :=
  C8_breakdown_counts_sum exampleRows ["COMPLETED", "NOT ATTENDED"] (by decide) (by decide)

/-! ### Technician leaderboard (src/app.py lines 392-410)

```python
tech_counts = tech_df.groupby([TECH_COL, STATUS_COL]).size()...
totals = tech_counts.groupby(TECH_COL)["COUNT"].sum().rename("TOTAL")
completed = tech_counts[... == "COMPLETED"].groupby(TECH_COL)["COUNT"].sum()...
rates = pd.concat([totals, completed], axis=1).fillna(0)
rates["COMP_RATE"] = rates["COMPLETED"] / rates["TOTAL"].where(rates["TOTAL"] != 0, 1)
order = rates.sort_values("COMP_RATE", ascending=False).index.tolist()
```
`groupby` drops null technicians and sorts the group keys ascending;
`sort_values` sorts by the single key `COMP_RATE` only, ties staying in
index (name) order.  Rates are modelled exactly with `ℚ`.
-/

/-- Lexicographic code-point comparison of character lists — Python's `<`
on strings, which is the order `groupby(sort=True)` uses on keys. -/
def strLtB : List Char → List Char → Bool
  | [], [] => false
  | [], _ :: _ => true
  | _ :: _, [] => false
  | a :: as, b :: bs =>
    if a.toNat < b.toNat then true
    else if b.toNat < a.toNat then false
    else strLtB as bs

/-- Non-strict lexicographic comparison of strings. -/
def strLeB (s t : String) : Bool := strLtB s.data t.data || s == t

/-- The sort relation for group keys (ascending technician name). -/
def techLe (a b : String) : Prop := strLeB a b = true

instance : DecidableRel techLe := fun a b => instDecidableEqBool (strLeB a b) true

/-- The distinct technician names of the rows (null technicians dropped), in
ascending name order — the index produced by `groupby(TECH_COL)`. -/
def techKeys (l : List Row) : List String :=
  ((l.filterMap Row.tech).dedup).insertionSort techLe

/-- `TOTAL`: number of rows of a given technician. -/
def totalCount (l : List Row) (t : String) : Nat :=
  l.countP (fun r => decide (r.tech = some t))

/-- `COMPLETED`: number of rows of a given technician with status
COMPLETED (0 when the group is absent, as `fillna(0)` makes it). -/
def completedCount (l : List Row) (t : String) : Nat :=
  l.countP (fun r => decide (r.tech = some t) && decide (r.status = "COMPLETED"))

/-- `COMP_RATE = COMPLETED / TOTAL.where(TOTAL != 0, 1)` as an exact
rational. -/
def compRate (l : List Row) (t : String) : ℚ :=
  (completedCount l t : ℚ) / (if totalCount l t ≠ 0 then (totalCount l t : ℚ) else 1)

/-- The comparison used by `sort_values("COMP_RATE", ascending=False)`:
earlier rows have the larger rate. -/
def rateGE (l : List Row) (a b : String) : Prop := compRate l b ≤ compRate l a

instance (l : List Row) : DecidableRel (rateGE l) := fun a b => by
  unfold rateGE; infer_instance

/-- The leaderboard order: technicians sorted by completion rate descending;
a stable sort, so ties keep the index (name) order. -/
def leaderboard (l : List Row) : List String :=
  (techKeys l).insertionSort (rateGE l)

/-- A technician's completed rows are among their total rows. -/
theorem completedCount_le_totalCount (l : List Row) (t : String) :
    completedCount l t ≤ totalCount l t := by
  unfold completedCount totalCount
  exact List.countP_mono_left fun r _ h => by
    simp only [Bool.and_eq_true] at h
    exact h.1

/-- Rows giving technicians A and B equal completion rates with different
completed counts. -/
def tieRows : List Row :=
  [⟨⟨2026, 1, 1⟩, some "Acme", some "A", "COMPLETED"⟩,
   ⟨⟨2026, 1, 2⟩, some "Acme", some "A", "ATTENDED"⟩,
   ⟨⟨2026, 1, 3⟩, some "Acme", some "B", "COMPLETED"⟩,
   ⟨⟨2026, 1, 4⟩, some "Acme", some "B", "COMPLETED"⟩,
   ⟨⟨2026, 1, 5⟩, some "Acme", some "B", "ATTENDED"⟩,
   ⟨⟨2026, 1, 6⟩, some "Acme", some "B", "ATTENDED"⟩]

/-- C7 counterexample: technicians A (1 completed of 2) and B (2 completed
of 4) have the same completion rate 1/2, B has strictly more completed
calls, yet the leaderboard lists A first — ties are not broken by
completed-count descending. -/
theorem C7_counterexample :
    compRate tieRows "A" = compRate tieRows "B" ∧
      completedCount tieRows "A" < completedCount tieRows "B" ∧
      leaderboard tieRows = ["A", "B"] := by
  have hA : completedCount tieRows "A" = 1 := by decide
  have hB : completedCount tieRows "B" = 2 := by decide
  have htA : totalCount tieRows "A" = 2 := by decide
  have htB : totalCount tieRows "B" = 4 := by decide
  have hrA : compRate tieRows "A" = 1 / 2 := by
    unfold compRate; rw [hA, htA]; norm_num
  have hrB : compRate tieRows "B" = 1 / 2 := by
    unfold compRate; rw [hB, htB]; norm_num
  have htech : techKeys tieRows = ["A", "B"] := by decide
  refine ⟨hrA.trans hrB.symm, by rw [hA, hB]; norm_num, ?_⟩
  have hr : rateGE tieRows "A" "B" := by
    unfold rateGE; rw [hrA, hrB]
  unfold leaderboard
  rw [htech]
  simp [List.insertionSort, List.orderedInsert, hr]

/-- C7 (amended): the reported completion rate equals completed/total for a
technician with rows and 0 for one with none (never a division error), and
the leaderboard is ordered by completion rate descending; ties are NOT
broken by completed count — the stable single-key sort leaves them in
technician-name order. -/
theorem C7_rate_and_order (l : List Row) :
    (∀ t, (totalCount l t ≠ 0 →
        compRate l t = (completedCount l t : ℚ) / (totalCount l t : ℚ))
      ∧ (totalCount l t = 0 → compRate l t = 0))
    ∧ (leaderboard l).Pairwise (fun a b => compRate l b ≤ compRate l a) := by
  constructor
  · intro t
    constructor
    · intro h
      unfold compRate
      rw [if_pos h]
    · intro h
      have hc : completedCount l t = 0 :=
        Nat.le_zero.1 (h ▸ completedCount_le_totalCount l t)
      unfold compRate
      rw [if_neg (fun hne => hne h), hc]
      simp
  · haveI : IsTotal String (rateGE l) :=
      ⟨fun a b => le_total (compRate l b) (compRate l a)⟩
    haveI : IsTrans String (rateGE l) :=
      ⟨fun _ _ _ hab hbc => le_trans hbc hab⟩
    exact List.sorted_insertionSort (rateGE l) (techKeys l)

/-- C7 witness: the amended theorem evaluated on the tie example — the rate
of A is its completed/total quotient, and an absent technician gets rate 0. -/
theorem C7_rate_and_order_witness :
    compRate tieRows "A" = (completedCount tieRows "A" : ℚ) / (totalCount tieRows "A" : ℚ) ∧
      compRate tieRows "Z" = 0 :=
  ⟨((C7_rate_and_order tieRows).1 "A").1 (by decide),
   ((C7_rate_and_order tieRows).1 "Z").2 (by decide)⟩

/-! ### Month bucketing (src/app.py lines 353-357, 376-383)

```python
tmp["PERIOD"] = tmp[DATE_COL].dt.to_period("M").astype(str)   # "YYYY-MM"
xorder = sorted(tmp["PERIOD"].unique())
tickvals = xorder
ticktext = [pd.to_datetime(p + "-01").strftime("%b") for p in xorder]
```
The period key is the zero-padded decimal rendering `YYYY-MM`; the axis is
ordered by the keys (`categoryarray=xorder`, string order) while the tick
labels shown are the abbreviated month names.
-/

/-- The decimal digit character of `n` (meaningful for `n ≤ 9`). -/
def digitChar (n : Nat) : Char := Char.ofNat (48 + n)

/-- The four zero-padded year digits of `%Y` for years below 10000. -/
def year4 (y : Nat) : List Char :=
  [digitChar (y / 1000 % 10), digitChar (y / 100 % 10),
   digitChar (y / 10 % 10), digitChar (y % 10)]

/-- The two zero-padded month digits of `%m`. -/
def month2 (m : Nat) : List Char := [digitChar (m / 10 % 10), digitChar (m % 10)]

/-- The month-period sort key `YYYY-MM` of a date
(`to_period("M").astype(str)`). -/
def periodKeyM (d : Date) : String := ⟨year4 d.year ++ '-' :: month2 d.month⟩

/-- The displayed tick label: the abbreviated month name (`strftime("%b")`). -/
def monthAbbrev : Nat → String
  | 1 => "Jan"
  | 2 => "Feb"
  | 3 => "Mar"
  | 4 => "Apr"
  | 5 => "May"
  | 6 => "Jun"
  | 7 => "Jul"
  | 8 => "Aug"
  | 9 => "Sep"
  | 10 => "Oct"
  | 11 => "Nov"
  | 12 => "Dec"
  | _ => ""

/-- Digit characters compare exactly as the digits they render. -/
theorem digitChar_lt_iff :
    ∀ a : Nat, a < 10 → ∀ b : Nat, b < 10 → (digitChar a < digitChar b ↔ a < b) := by
  decide

/-- Digit characters are injective on digits. -/
theorem digitChar_inj :
    ∀ a : Nat, a < 10 → ∀ b : Nat, b < 10 → (digitChar a = digitChar b ↔ a = b) := by
  decide

/-- The lexicographic list order is irreflexive over characters. -/
theorem listLt_irrefl : ∀ l : List Char, ¬ List.lt l l
  | [], h => by cases h
  | c :: cs, h => by
    cases h with
    | head _ _ hlt => exact absurd hlt (lt_irrefl c)
    | tail _ _ h3 => exact listLt_irrefl cs h3

/-- A shared prefix preserves lexicographic comparison of the tails. -/
theorem listLt_append_left (pre t1 t2 : List Char) (h : List.lt t1 t2) :
    List.lt (pre ++ t1) (pre ++ t2) := by
  induction pre with
  | nil => exact h
  | cons c cs ih => exact List.lt.tail (lt_irrefl c) (lt_irrefl c) ih

/-- Equal characters step a lexicographic comparison to the tails. -/
theorem listLt_cons_eq {a b : Char} (h : a = b) {as bs : List Char}
    (ht : List.lt as bs) : List.lt (a :: as) (b :: bs) := by
  subst h
  exact List.lt.tail (lt_irrefl a) (lt_irrefl a) ht

/-- The 4-digit year rendering is strictly monotone below 10000, whatever
follows it. -/
theorem year4_append_lt (y1 y2 : Nat) (h : y1 < y2) (hy2 : y2 < 10000)
    (t1 t2 : List Char) : List.lt (year4 y1 ++ t1) (year4 y2 ++ t2) := by
  have d1 : y1 / 1000 % 10 < 10 := Nat.mod_lt _ (by omega)
  have d2 : y2 / 1000 % 10 < 10 := Nat.mod_lt _ (by omega)
  simp only [year4, List.cons_append, List.nil_append]
  rcases Nat.lt_trichotomy (y1 / 1000 % 10) (y2 / 1000 % 10) with h1 | h1 | h1
  · exact List.lt.head _ _ ((digitChar_lt_iff _ d1 _ d2).2 h1)
  · refine listLt_cons_eq (congrArg digitChar h1) ?_
    rcases Nat.lt_trichotomy (y1 / 100 % 10) (y2 / 100 % 10) with h2 | h2 | h2
    · exact List.lt.head _ _ ((digitChar_lt_iff _ (Nat.mod_lt _ (by omega)) _
        (Nat.mod_lt _ (by omega))).2 h2)
    · refine listLt_cons_eq (congrArg digitChar h2) ?_
      rcases Nat.lt_trichotomy (y1 / 10 % 10) (y2 / 10 % 10) with h3 | h3 | h3
      · exact List.lt.head _ _ ((digitChar_lt_iff _ (Nat.mod_lt _ (by omega)) _
          (Nat.mod_lt _ (by omega))).2 h3)
      · refine listLt_cons_eq (congrArg digitChar h3) ?_
        have h4 : y1 % 10 < y2 % 10 := by omega
        exact List.lt.head _ _ ((digitChar_lt_iff _ (Nat.mod_lt _ (by omega)) _
          (Nat.mod_lt _ (by omega))).2 h4)
      · exact absurd h3 (by omega)
    · exact absurd h2 (by omega)
  · exact absurd h1 (by omega)

/-- The 2-digit month rendering is strictly monotone below 100. -/
theorem month2_lt (m1 m2 : Nat) (h : m1 < m2) (hm2 : m2 < 100) :
    List.lt (month2 m1) (month2 m2) := by
  simp only [month2]
  rcases Nat.lt_trichotomy (m1 / 10 % 10) (m2 / 10 % 10) with h1 | h1 | h1
  · exact List.lt.head _ _ ((digitChar_lt_iff _ (Nat.mod_lt _ (by omega)) _
      (Nat.mod_lt _ (by omega))).2 h1)
  · refine listLt_cons_eq (congrArg digitChar h1) ?_
    have h2 : m1 % 10 < m2 % 10 := by omega
    exact List.lt.head _ _ ((digitChar_lt_iff _ (Nat.mod_lt _ (by omega)) _
      (Nat.mod_lt _ (by omega))).2 h2)
  · exact absurd h1 (by omega)

/-- Strict year-month precedence gives strict string precedence of the
period keys. -/
theorem periodKeyM_lt (d1 d2 : Date) (hy2 : d2.year < 10000)
    (hm2 : d2.month < 100)
    (h : d1.year < d2.year ∨ (d1.year = d2.year ∧ d1.month < d2.month)) :
    List.lt (periodKeyM d1).data (periodKeyM d2).data := by
  show List.lt (year4 d1.year ++ '-' :: month2 d1.month)
    (year4 d2.year ++ '-' :: month2 d2.month)
  rcases h with h | ⟨hy, hm⟩
  · exact year4_append_lt _ _ h hy2 _ _
  · rw [hy]
    have : ∀ t1 t2, List.lt t1 t2 →
        List.lt (year4 d2.year ++ t1) (year4 d2.year ++ t2) :=
      fun t1 t2 => listLt_append_left (year4 d2.year) t1 t2
    exact this _ _ (listLt_cons_eq rfl (month2_lt _ _ hm hm2))

/-- The abbreviated month label never exceeds three characters. -/
theorem monthAbbrev_length (m : Nat) : (monthAbbrev m).data.length ≤ 3 := by
  unfold monthAbbrev
  split <;> decide

/-- C9: period keys of two different years with the same month number are
distinct; the keys order by year, then month (so the categorical axis sorted
on keys is in chronological order); and a period key is never the displayed
month label — sort key and display label are different strings. -/
theorem C9_month_buckets (d1 d2 : Date)
    (hy1 : d1.year < 10000) (hy2 : d2.year < 10000)
    (_hm1 : 1 ≤ d1.month) (_hm1' : d1.month ≤ 12)
    (hm2 : 1 ≤ d2.month) (hm2' : d2.month ≤ 12) :
    (d1.month = d2.month → d1.year ≠ d2.year → periodKeyM d1 ≠ periodKeyM d2)
    ∧ (d1.year < d2.year ∨ (d1.year = d2.year ∧ d1.month < d2.month) →
        periodKeyM d1 < periodKeyM d2)
    ∧ periodKeyM d1 ≠ monthAbbrev d1.month := by
  refine ⟨?_, ?_, ?_⟩
  · intro _ hne he
    rcases Nat.lt_or_ge d1.year d2.year with h | h
    · have hlt := periodKeyM_lt d1 d2 hy2 (by omega) (Or.inl h)
      rw [he] at hlt
      exact listLt_irrefl _ hlt
    · have h' : d2.year < d1.year := lt_of_le_of_ne h (Ne.symm hne)
      have hlt := periodKeyM_lt d2 d1 hy1 (by omega) (Or.inl h')
      rw [he] at hlt
      exact listLt_irrefl _ hlt
  · intro h
    refine String.lt_iff_toList_lt.2 ?_
    exact (List.lt_iff_lex_lt _ _).1 (periodKeyM_lt d1 d2 hy2 (by omega) h)
  · intro he
    have hlen : (periodKeyM d1).data.length = (monthAbbrev d1.month).data.length := by
      rw [he]
    have h7 : (periodKeyM d1).data.length = 7 := by
      simp [periodKeyM, year4, month2]
    have h3 := monthAbbrev_length d1.month
    rw [h7] at hlen
    omega

/-- C9 witness: January 2025 and January 2026 get distinct, correctly
ordered period keys, and the 2025 key differs from its "Jan" label. -/
theorem C9_month_buckets_witness :
    periodKeyM ⟨2025, 1, 15⟩ ≠ periodKeyM ⟨2026, 1, 20⟩ ∧
      periodKeyM ⟨2025, 1, 15⟩ < periodKeyM ⟨2026, 1, 20⟩ ∧
      periodKeyM ⟨2025, 1, 15⟩ ≠ monthAbbrev 1 := by
  have h := C9_month_buckets ⟨2025, 1, 15⟩ ⟨2026, 1, 20⟩
    (by decide) (by decide) (by decide) (by decide) (by decide) (by decide)
  exact ⟨h.1 rfl (by decide), h.2.1 (Or.inl (by decide)), h.2.2⟩

end Dashboard
